import Mathlib

/-!
Verification of the `get_block_with_tx_hashes` RPC method of the pathfinder
repository (`crates/rpc/src/v05/method/get_block_with_tx_hashes.rs`),
shallowly embedded in Lean 4.

The embedding models:
* the block-identifier type `BlockId` and its conversion to a persisted
  storage key (the non-pending cast);
* the RPC context, with an optional pending-data overlay and a storage
  handle exposing the three reads the handler issues inside one database
  transaction (header lookup, L1-acceptance fact, transaction-hash list);
* the reply type `types::Block` with its two constructors `from_parts`
  (persisted path) and `from_sequencer` (pending path);
* the error subset `GetBlockError`, generated in the source by
  `generate_rpc_error_subset!(GetBlockError: BlockNotFound)`, i.e. the
  variants `BlockNotFound` and the universal `Internal` catch-all;
* the handler itself, returning `none` exactly where the Rust code would
  panic (the `expect` on the non-pending cast) and `some` of the
  `Result` otherwise;
* the JSON input schema of `GetBlockInput` (strict, unknown fields
  rejected), with positional and named parameter encodings.
-/

/-- Block identifier as supplied by the client
(`pathfinder_common::BlockId`): the tag values `pending` and `latest`,
a block number, or a block hash.  Hash digests are modelled as strings. -/
inductive BlockId
  | Pending
  | Latest
  | Number (n : Nat)
  | Hash (d : String)
deriving DecidableEq, Repr

/-- Persisted-lookup key (`pathfinder_storage::BlockId`): the non-pending
identifiers that can be resolved against the persisted store. -/
inductive PersistedKey
  | latest
  | number (n : Nat)
  | hash (d : String)
deriving DecidableEq, Repr

/-- Modelled from the spec: the `TryFrom<BlockId>` conversion used at
`other.try_into().expect("Only pending cast should fail")` lives in a
crate outside the provided sources.  Per the spec, non-pending references
always produce a persisted-lookup key and only the pending cast fails. -/
def blockIdToKey : BlockId → Option PersistedKey
  | .Pending => none
  | .Latest => some .latest
  | .Number n => some (.number n)
  | .Hash d => some (.hash d)

/-- Persisted block header (the fields of `pathfinder_common::BlockHeader`
the method reads, plus representative chain metadata carried through
unchanged into the reply). -/
structure BlockHeader where
  number : Nat
  hash : String
  parent_hash : String
  state_root : String
  timestamp : Nat
deriving DecidableEq, Repr

/-- Block finality status (`crate::v02::types::reply::BlockStatus`). -/
inductive BlockStatus
  | Pending
  | AcceptedOnL2
  | AcceptedOnL1
  | Rejected
deriving DecidableEq, Repr

/-- A transaction as found in a sequencer (pending) block; the handler
only reads its hash. -/
structure SequencerTransaction where
  hash : String
deriving DecidableEq, Repr

/-- The sequencer's block representation
(`starknet_gateway_types::reply::MaybePendingBlock`) as consumed by
`Block::from_sequencer`: a status, an ordered transaction list, and
header-like fields. -/
structure SequencerBlock where
  status : BlockStatus
  transactions : List SequencerTransaction
  parent_hash : String
  state_root : String
  timestamp : Nat
deriving DecidableEq, Repr

/-- Modelled from the spec: the conversion
`crate::v05::types::BlockHeader::from_sequencer` is outside the provided
sources; the pending snapshot carries its own header-like fields, which
the assembler flattens into the reply header (a pending block has no
number or hash of its own yet). -/
def headerFromSequencer (b : SequencerBlock) : BlockHeader :=
  { number := 0
    hash := ""
    parent_hash := b.parent_hash
    state_root := b.state_root
    timestamp := b.timestamp }

/-- The pending-data overlay (`starknet_gateway_types::pending::PendingData`):
its `block()` accessor yields the current pending block, if any. -/
structure PendingData where
  block : Option SequencerBlock
deriving DecidableEq, Repr

/-- The persisted store as seen through one read transaction: the set of
persisted headers, the highest L1-accepted height (absent when no L1
update has been recorded), and the per-height transaction-hash lists. -/
structure Storage where
  headers : List BlockHeader
  l1AcceptedHeight : Option Nat
  txHashesForBlock : Nat → Option (List String)

/-- `transaction.block_header(block_id)`: resolve a persisted-lookup key
to a header.  `latest` resolves to the highest known height inside the
read, `number` and `hash` look the header up by that field. -/
def Storage.block_header (s : Storage) : PersistedKey → Option BlockHeader
  | .latest =>
      s.headers.foldl
        (fun acc h =>
          match acc with
          | none => some h
          | some a => if a.number < h.number then some h else some a)
        none
  | .number n => s.headers.find? (fun h => h.number = n)
  | .hash d => s.headers.find? (fun h => h.hash = d)

/-- Modelled from the spec: `transaction.block_is_l1_accepted(number)` is
implemented in the storage crate, outside the provided sources.  Per the
spec, a height is L1-accepted exactly when it is at or below the highest
L1-accepted height (inclusive); with no L1 fact recorded, no height is
L1-accepted. -/
def Storage.block_is_l1_accepted (s : Storage) (n : Nat) : Bool :=
  match s.l1AcceptedHeight with
  | none => false
  | some l => n ≤ l

/-- The RPC context (`crate::context::RpcContext`): the storage handle and
the optional pending-data overlay. -/
structure RpcContext where
  storage : Storage
  pending_data : Option PendingData

/-- The parsed input of the method. -/
structure GetBlockInput where
  block_id : BlockId
deriving DecidableEq, Repr

/-- The error subset generated by
`generate_rpc_error_subset!(GetBlockError: BlockNotFound)`: the declared
kind `BlockNotFound` plus the universal `Internal` catch-all carrying a
causal-chain message. -/
inductive GetBlockError
  | BlockNotFound
  | Internal (msg : String)
deriving DecidableEq, Repr

/-- The reply type `types::Block`: flattened header fields, a status, and
the ordered transaction-hash list. -/
structure Block where
  header : BlockHeader
  status : BlockStatus
  transactions : List String
deriving DecidableEq, Repr

/-- `types::Block::from_parts`: assemble the reply from persisted rows. -/
def Block.from_parts (header : BlockHeader) (status : BlockStatus)
    (transactions : List String) : Block :=
  { header := header, status := status, transactions := transactions }

/-- `types::Block::from_sequencer`: assemble the reply from the pending
snapshot — status from the block, transactions as the in-order hashes of
the block's transactions, header from the sequencer conversion. -/
def Block.from_sequencer (block : SequencerBlock) : Block :=
  { status := block.status
    transactions := block.transactions.map SequencerTransaction.hash
    header := headerFromSequencer block }

/-- The body of the closure submitted to `spawn_blocking`: within one
read transaction, read the header (absence is `BlockNotFound`), the
L1-acceptance fact deciding the status, and the transaction hashes
(absence after a found header is the invariant violation `Internal` with
context `Missing block`), then assemble the reply with `from_parts`. -/
def persistedLookup (storage : Storage) (block_id : PersistedKey) :
    Except GetBlockError Block :=
  match storage.block_header block_id with
  | none => .error .BlockNotFound
  | some header =>
      let block_status :=
        if storage.block_is_l1_accepted header.number then
          BlockStatus.AcceptedOnL1
        else
          BlockStatus.AcceptedOnL2
      match storage.txHashesForBlock header.number with
      | none => .error (.Internal "Missing block")
      | some transactions =>
          .ok (Block.from_parts header block_status transactions)

/-- The handler `get_block_with_tx_hashes`.  `none` models the panic of
`expect("Only pending cast should fail")`; `some` carries the returned
`Result`.  The pending branch mirrors the source: a missing overlay is an
`anyhow` error folded by `?` into `GetBlockError::Internal`; an overlay
without a block is `BlockNotFound`; otherwise the pending snapshot is
assembled directly with no storage read.  Every other identifier is cast
to a persisted-lookup key and handed to the blocking closure
`persistedLookup`. -/
def get_block_with_tx_hashes (context : RpcContext) (input : GetBlockInput) :
    Option (Except GetBlockError Block) :=
  match input.block_id with
  | .Pending =>
      match context.pending_data with
      | none =>
          some (.error (.Internal "Pending data not supported in this configuration"))
      | some pd =>
          match pd.block with
          | some block => some (.ok (Block.from_sequencer block))
          | none => some (.error .BlockNotFound)
  | other =>
      match blockIdToKey other with
      | none => none
      | some block_id => some (persistedLookup context.storage block_id)

/-- A JSON value, as far as the input schema needs it. -/
inductive Json
  | str (s : String)
  | num (n : Nat)
  | obj (fields : List (String × Json))
  | arr (elems : List Json)

/-- Modelled from the spec: the `serde` deserialization of `BlockId` lives
outside the provided sources.  Per the spec, the identifier is either a
bare tag string (`pending` / `latest`) or an object with a single
discriminating key (`block_number`: integer, or `block_hash`: hash
string); unknown fields in the input object are rejected. -/
def parseBlockId : Json → Option BlockId
  | .str s =>
      if s = "pending" then some .Pending
      else if s = "latest" then some .Latest
      else none
  | .obj [(k, v)] =>
      if k = "block_number" then
        match v with
        | .num n => some (.Number n)
        | _ => none
      else if k = "block_hash" then
        match v with
        | .str d => some (.Hash d)
        | _ => none
      else none
  | _ => none

/-- Modelled from the spec: the RPC framework accepts the parameters of
`GetBlockInput` either positionally (a one-element array) or by name (an
object with the single field `block_id`); `deny_unknown_fields` rejects
any other field. -/
def parseGetBlockInput : Json → Option GetBlockInput
  | .arr [v] => (parseBlockId v).map GetBlockInput.mk
  | .obj [(k, v)] =>
      if k = "block_id" then (parseBlockId v).map GetBlockInput.mk else none
  | _ => none

/-! ### Sample stores and contexts, used to instantiate the theorems -/

/-- A store with no persisted blocks and no L1 fact. -/
def emptyStorage : Storage :=
  { headers := [], l1AcceptedHeight := none, txHashesForBlock := fun _ => none }

/-- A context with no pending overlay configured. -/
def noPendingCtx : RpcContext :=
  { storage := emptyStorage, pending_data := none }

/-- A context whose pending overlay is configured but holds no block. -/
def emptyPendingCtx : RpcContext :=
  { storage := emptyStorage, pending_data := some { block := none } }

/-- A sample persisted genesis header. -/
def hdr0 : BlockHeader :=
  { number := 0, hash := "0xabc", parent_hash := "0x0",
    state_root := "0xroot", timestamp := 1000 }

/-- A store holding `hdr0` with its two transactions, L1-accepted up to
height 0. -/
def storage1 : Storage :=
  { headers := [hdr0]
    l1AcceptedHeight := some 0
    txHashesForBlock := fun n => if n = 0 then some ["0xt1", "0xt2"] else none }

/-- A context over `storage1` with no pending overlay. -/
def ctx1 : RpcContext :=
  { storage := storage1, pending_data := none }

/-- A store holding `hdr0` but no transaction list for it (a broken
invariant). -/
def storageNoTxs : Storage :=
  { headers := [hdr0], l1AcceptedHeight := none, txHashesForBlock := fun _ => none }

/-- A context over `storageNoTxs`. -/
def ctxNoTxs : RpcContext :=
  { storage := storageNoTxs, pending_data := none }

/-! ### Claims -/

/-- C1 (counterexample): on a context with no pending overlay configured,
querying `Pending` returns the `Internal` catch-all — the method's error
subset has no dedicated pending-not-supported kind, so the claim that the
result is "never Internal" fails at this concrete input. -/
theorem pending_unconfigured_is_internal_cex :
    get_block_with_tx_hashes noPendingCtx { block_id := .Pending } =
      some (.error (.Internal "Pending data not supported in this configuration")) := rfl

/-- C1 (amended): for every call with `block_id = Pending` on a context
whose pending overlay is not configured, the result is the `Internal`
catch-all carrying the message
"Pending data not supported in this configuration" — never
`BlockNotFound` and never a successful payload. -/
theorem pending_unconfigured_internal (ctx : RpcContext) (input : GetBlockInput)
    (hp : ctx.pending_data = none) (hb : input.block_id = .Pending) :
    get_block_with_tx_hashes ctx input =
      some (.error (.Internal "Pending data not supported in this configuration")) := by
  simp [get_block_with_tx_hashes, hb, hp]

/-- C1 witness: the amended theorem instantiated at `noPendingCtx`. -/
theorem pending_unconfigured_internal_witness :
    get_block_with_tx_hashes noPendingCtx { block_id := .Pending } =
      some (.error (.Internal "Pending data not supported in this configuration")) :=
  pending_unconfigured_internal noPendingCtx { block_id := .Pending } rfl rfl

/-- C2: for every context and input, any error returned by
`get_block_with_tx_hashes` is either the declared kind `BlockNotFound` or
the universal `Internal` catch-all; no other taxonomy kind can appear in
the error channel. -/
theorem error_channel_subset (ctx : RpcContext) (input : GetBlockInput)
    (e : GetBlockError)
    (h : get_block_with_tx_hashes ctx input = some (.error e)) :
    e = .BlockNotFound ∨ ∃ msg, e = .Internal msg := by
  cases e with
  | BlockNotFound => exact Or.inl rfl
  | Internal msg => exact Or.inr ⟨msg, rfl⟩

/-- C2 witness: the subset theorem instantiated at a concrete erroring
call. -/
theorem error_channel_subset_witness :
    (GetBlockError.Internal "Pending data not supported in this configuration" =
        .BlockNotFound) ∨
      ∃ msg, GetBlockError.Internal "Pending data not supported in this configuration" =
        .Internal msg :=
  error_channel_subset noPendingCtx { block_id := .Pending }
    (.Internal "Pending data not supported in this configuration") rfl

/-- C7: for every call with `block_id = Pending` on a context whose
pending overlay is configured but holds no block payload, the result is
`BlockNotFound`. -/
theorem pending_empty_not_found (ctx : RpcContext) (pd : PendingData)
    (hp : ctx.pending_data = some pd) (hb : pd.block = none) :
    get_block_with_tx_hashes ctx { block_id := .Pending } =
      some (.error .BlockNotFound) := by
  simp [get_block_with_tx_hashes, hp, hb]

/-- C7 witness: the theorem instantiated at `emptyPendingCtx`. -/
theorem pending_empty_not_found_witness :
    get_block_with_tx_hashes emptyPendingCtx { block_id := .Pending } =
      some (.error .BlockNotFound) :=
  pending_empty_not_found emptyPendingCtx { block := none } rfl rfl

/-- C8: the non-pending cast never fails — every `BlockId` other than
`Pending` converts to a persisted-lookup key — and consequently the
handler never reaches the panic branch (`expect`) on any input: its
result is always `some`. -/
theorem nonpending_cast_total :
    (∀ id, id ≠ BlockId.Pending → (blockIdToKey id).isSome = true) ∧
      ∀ (ctx : RpcContext) (input : GetBlockInput),
        (get_block_with_tx_hashes ctx input).isSome = true := by
  constructor
  · intro id hid
    cases id with
    | Pending => exact absurd rfl hid
    | Latest => rfl
    | Number n => rfl
    | Hash d => rfl
  · intro ctx input
    cases hb : input.block_id with
    | Pending =>
        cases hp : ctx.pending_data with
        | none => simp [get_block_with_tx_hashes, hb, hp]
        | some pd =>
            cases hpb : pd.block <;>
              simp [get_block_with_tx_hashes, hb, hp, hpb]
    | Latest => simp [get_block_with_tx_hashes, hb, blockIdToKey]
    | Number n => simp [get_block_with_tx_hashes, hb, blockIdToKey]
    | Hash d => simp [get_block_with_tx_hashes, hb, blockIdToKey]

/-- C8 witness: the totality theorem instantiated at `Latest` and at a
concrete call. -/
theorem nonpending_cast_total_witness :
    (blockIdToKey BlockId.Latest).isSome = true ∧
      (get_block_with_tx_hashes noPendingCtx { block_id := .Latest }).isSome = true :=
  ⟨nonpending_cast_total.1 BlockId.Latest (by decide),
   nonpending_cast_total.2 noPendingCtx { block_id := .Latest }⟩

/-- C10: when the header lookup succeeds but the transaction-hash list is
absent from storage, the handler returns `Internal` with context
`Missing block`, not `BlockNotFound`. -/
theorem missing_tx_list_internal (ctx : RpcContext) (input : GetBlockInput)
    (key : PersistedKey) (hdr : BlockHeader)
    (hk : blockIdToKey input.block_id = some key)
    (hh : ctx.storage.block_header key = some hdr)
    (ht : ctx.storage.txHashesForBlock hdr.number = none) :
    get_block_with_tx_hashes ctx input =
      some (.error (.Internal "Missing block")) := by
  cases hb : input.block_id with
  | Pending => rw [hb] at hk; exact absurd hk (by simp [blockIdToKey])
  | Latest =>
      rw [hb] at hk
      simp only [blockIdToKey, Option.some.injEq] at hk
      subst hk
      simp [get_block_with_tx_hashes, hb, blockIdToKey, persistedLookup, hh, ht]
  | Number n =>
      rw [hb] at hk
      simp only [blockIdToKey, Option.some.injEq] at hk
      subst hk
      simp [get_block_with_tx_hashes, hb, blockIdToKey, persistedLookup, hh, ht]
  | Hash d =>
      rw [hb] at hk
      simp only [blockIdToKey, Option.some.injEq] at hk
      subst hk
      simp [get_block_with_tx_hashes, hb, blockIdToKey, persistedLookup, hh, ht]

/-- C10 witness: the theorem instantiated at `ctxNoTxs`, whose store holds
the genesis header but no transaction list. -/
theorem missing_tx_list_internal_witness :
    get_block_with_tx_hashes ctxNoTxs { block_id := .Number 0 } =
      some (.error (.Internal "Missing block")) :=
  missing_tx_list_internal ctxNoTxs { block_id := .Number 0 }
    (.number 0) hdr0 rfl rfl rfl

/-- Helper: `find?` returns exactly the element satisfying the predicate
when that element is in the list and is the only satisfying one. -/
theorem find_unique {α : Type} (p : α → Bool) (l : List α) (a : α)
    (ha : a ∈ l) (hpa : p a = true)
    (huniq : ∀ x ∈ l, p x = true → x = a) :
    l.find? p = some a := by
  induction l with
  | nil => cases ha
  | cons b t ih =>
      by_cases hb : p b = true
      · rw [List.find?_cons_of_pos _ hb]
        rw [huniq b (List.mem_cons_self b t) hb]
      · rw [List.find?_cons_of_neg _ (by simpa using hb)]
        apply ih
        · rcases List.mem_cons.mp ha with h | h
          · subst h; exact absurd hpa hb
          · exact h
        · intro x hx hpx
          exact huniq x (List.mem_cons_of_mem _ hx) hpx

/-- Helper: on every non-pending identifier the handler returns the
result of the blocking persisted lookup at the cast key. -/
theorem get_nonpending (ctx : RpcContext) (bid : BlockId) (key : PersistedKey)
    (hk : blockIdToKey bid = some key) :
    get_block_with_tx_hashes ctx { block_id := bid } =
      some (persistedLookup ctx.storage key) := by
  cases bid with
  | Pending => exact absurd hk (by simp [blockIdToKey])
  | Latest =>
      simp only [blockIdToKey, Option.some.injEq] at hk
      subst hk; rfl
  | Number n =>
      simp only [blockIdToKey, Option.some.injEq] at hk
      subst hk; rfl
  | Hash d =>
      simp only [blockIdToKey, Option.some.injEq] at hk
      subst hk; rfl

/-- C3: for every persisted header — with the store's invariants that
heights are unique and hashes are unique — querying by the block's hash
and querying by its height return identical replies. -/
theorem hash_number_convergence (ctx : RpcContext) (hdr : BlockHeader)
    (hmem : hdr ∈ ctx.storage.headers)
    (hnum : ∀ h1 ∈ ctx.storage.headers, ∀ h2 ∈ ctx.storage.headers,
      h1.number = h2.number → h1 = h2)
    (hhash : ∀ h1 ∈ ctx.storage.headers, ∀ h2 ∈ ctx.storage.headers,
      h1.hash = h2.hash → h1 = h2) :
    get_block_with_tx_hashes ctx { block_id := .Hash hdr.hash } =
      get_block_with_tx_hashes ctx { block_id := .Number hdr.number } := by
  have h1 : ctx.storage.block_header (.hash hdr.hash) = some hdr := by
    show ctx.storage.headers.find? (fun h => h.hash = hdr.hash) = some hdr
    exact find_unique _ _ _ hmem (by simp)
      (fun x hx hpx => hhash x hx hdr hmem (by simpa using hpx))
  have h2 : ctx.storage.block_header (.number hdr.number) = some hdr := by
    show ctx.storage.headers.find? (fun h => h.number = hdr.number) = some hdr
    exact find_unique _ _ _ hmem (by simp)
      (fun x hx hpx => hnum x hx hdr hmem (by simpa using hpx))
  rw [get_nonpending ctx (.Hash hdr.hash) (.hash hdr.hash) rfl,
    get_nonpending ctx (.Number hdr.number) (.number hdr.number) rfl]
  simp [persistedLookup, h1, h2]

/-- C3 witness: the convergence theorem instantiated at `ctx1` and its
single persisted header `hdr0`. -/
theorem hash_number_convergence_witness :
    get_block_with_tx_hashes ctx1 { block_id := .Hash hdr0.hash } =
      get_block_with_tx_hashes ctx1 { block_id := .Number hdr0.number } :=
  hash_number_convergence ctx1 hdr0 (by simp [ctx1, storage1])
    (by simp [ctx1, storage1]) (by simp [ctx1, storage1])

/-- C4: for every successful non-pending reply on a store whose highest
L1-accepted height is `l`, the reply's status is `AcceptedOnL1` exactly
when the block's height is at or below `l` (boundary inclusive), and
`AcceptedOnL2` above it. -/
theorem status_from_l1_height (ctx : RpcContext) (input : GetBlockInput)
    (blk : Block) (l : Nat)
    (hL : ctx.storage.l1AcceptedHeight = some l)
    (hnp : input.block_id ≠ .Pending)
    (h : get_block_with_tx_hashes ctx input = some (.ok blk)) :
    blk.status = if blk.header.number ≤ l then BlockStatus.AcceptedOnL1
      else BlockStatus.AcceptedOnL2 := by
  obtain ⟨bid⟩ := input
  obtain ⟨key, hk⟩ : ∃ key, blockIdToKey bid = some key := by
    cases bid with
    | Pending => exact absurd rfl hnp
    | Latest => exact ⟨_, rfl⟩
    | Number n => exact ⟨_, rfl⟩
    | Hash d => exact ⟨_, rfl⟩
  rw [get_nonpending ctx bid key hk] at h
  cases hh : ctx.storage.block_header key with
  | none => simp [persistedLookup, hh] at h
  | some hdr =>
      cases ht : ctx.storage.txHashesForBlock hdr.number with
      | none => simp [persistedLookup, hh, ht] at h
      | some txs =>
          simp only [persistedLookup, hh, ht, Option.some.injEq,
            Except.ok.injEq] at h
          rw [← h]
          simp [Block.from_parts, Storage.block_is_l1_accepted, hL]

/-- C4 witness: the status theorem instantiated at `ctx1`, where the
genesis block sits exactly at the highest L1-accepted height 0 and must
therefore report `AcceptedOnL1`. -/
theorem status_from_l1_height_witness :
    (Block.from_parts hdr0 .AcceptedOnL1 ["0xt1", "0xt2"]).status =
      if (Block.from_parts hdr0 .AcceptedOnL1 ["0xt1", "0xt2"]).header.number ≤ 0
      then BlockStatus.AcceptedOnL1 else BlockStatus.AcceptedOnL2 :=
  status_from_l1_height ctx1 { block_id := .Number 0 }
    (Block.from_parts hdr0 .AcceptedOnL1 ["0xt1", "0xt2"]) 0 rfl
    (by simp) rfl

/-- C5: every successful reply carries exactly the source block's
transaction hashes in their original order: on the pending path the
in-order hashes of the snapshot's transactions, on the persisted path the
stored transaction-hash list itself — never reordered, deduplicated or
truncated. -/
theorem transactions_preserved (ctx : RpcContext) (input : GetBlockInput)
    (blk : Block)
    (h : get_block_with_tx_hashes ctx input = some (.ok blk)) :
    (∃ pd sb, input.block_id = .Pending ∧ ctx.pending_data = some pd ∧
        pd.block = some sb ∧
        blk.transactions = sb.transactions.map SequencerTransaction.hash) ∨
      ∃ key hdr, blockIdToKey input.block_id = some key ∧
        ctx.storage.block_header key = some hdr ∧
        ctx.storage.txHashesForBlock hdr.number = some blk.transactions := by
  obtain ⟨bid⟩ := input
  cases bid with
  | Pending =>
      cases hp : ctx.pending_data with
      | none => simp [get_block_with_tx_hashes, hp] at h
      | some pd =>
          cases hpb : pd.block with
          | none => simp [get_block_with_tx_hashes, hp, hpb] at h
          | some sb =>
              left
              refine ⟨pd, sb, rfl, rfl, hpb, ?_⟩
              simp only [get_block_with_tx_hashes, hp, hpb,
                Option.some.injEq, Except.ok.injEq] at h
              rw [← h]
              simp [Block.from_sequencer]
  | Latest =>
      right
      rw [get_nonpending ctx .Latest .latest rfl] at h
      cases hh : ctx.storage.block_header .latest with
      | none => simp [persistedLookup, hh] at h
      | some hdr =>
          cases ht : ctx.storage.txHashesForBlock hdr.number with
          | none => simp [persistedLookup, hh, ht] at h
          | some txs =>
              refine ⟨.latest, hdr, rfl, hh, ?_⟩
              simp only [persistedLookup, hh, ht, Option.some.injEq,
                Except.ok.injEq] at h
              rw [← h]
              simp [Block.from_parts, ht]
  | Number n =>
      right
      rw [get_nonpending ctx (.Number n) (.number n) rfl] at h
      cases hh : ctx.storage.block_header (.number n) with
      | none => simp [persistedLookup, hh] at h
      | some hdr =>
          cases ht : ctx.storage.txHashesForBlock hdr.number with
          | none => simp [persistedLookup, hh, ht] at h
          | some txs =>
              refine ⟨.number n, hdr, rfl, hh, ?_⟩
              simp only [persistedLookup, hh, ht, Option.some.injEq,
                Except.ok.injEq] at h
              rw [← h]
              simp [Block.from_parts, ht]
  | Hash d =>
      right
      rw [get_nonpending ctx (.Hash d) (.hash d) rfl] at h
      cases hh : ctx.storage.block_header (.hash d) with
      | none => simp [persistedLookup, hh] at h
      | some hdr =>
          cases ht : ctx.storage.txHashesForBlock hdr.number with
          | none => simp [persistedLookup, hh, ht] at h
          | some txs =>
              refine ⟨.hash d, hdr, rfl, hh, ?_⟩
              simp only [persistedLookup, hh, ht, Option.some.injEq,
                Except.ok.injEq] at h
              rw [← h]
              simp [Block.from_parts, ht]

/-- C5 witness: the preservation theorem instantiated at `ctx1` and its
genesis block reply. -/
theorem transactions_preserved_witness :
    (∃ pd sb, ({ block_id := .Number 0 } : GetBlockInput).block_id = .Pending ∧
        ctx1.pending_data = some pd ∧ pd.block = some sb ∧
        (Block.from_parts hdr0 .AcceptedOnL1 ["0xt1", "0xt2"]).transactions =
          sb.transactions.map SequencerTransaction.hash) ∨
      ∃ key hdr,
        blockIdToKey ({ block_id := .Number 0 } : GetBlockInput).block_id = some key ∧
        ctx1.storage.block_header key = some hdr ∧
        ctx1.storage.txHashesForBlock hdr.number =
          some (Block.from_parts hdr0 .AcceptedOnL1 ["0xt1", "0xt2"]).transactions :=
  transactions_preserved ctx1 { block_id := .Number 0 }
    (Block.from_parts hdr0 .AcceptedOnL1 ["0xt1", "0xt2"]) rfl

/-- C6: querying a height at which no header is persisted, and querying a
hash no persisted header has, both return `BlockNotFound` — never
`Internal`. -/
theorem nonexistent_block_not_found (ctx : RpcContext) (n : Nat) (d : String)
    (hn : ∀ h ∈ ctx.storage.headers, ¬ h.number = n)
    (hd : ∀ h ∈ ctx.storage.headers, ¬ h.hash = d) :
    get_block_with_tx_hashes ctx { block_id := .Number n } =
        some (.error .BlockNotFound) ∧
      get_block_with_tx_hashes ctx { block_id := .Hash d } =
        some (.error .BlockNotFound) := by
  have h1 : ctx.storage.block_header (.number n) = none := by
    show ctx.storage.headers.find? (fun h => h.number = n) = none
    simp only [List.find?_eq_none, decide_eq_true_eq]
    exact hn
  have h2 : ctx.storage.block_header (.hash d) = none := by
    show ctx.storage.headers.find? (fun h => h.hash = d) = none
    simp only [List.find?_eq_none, decide_eq_true_eq]
    exact hd
  constructor
  · rw [get_nonpending ctx (.Number n) (.number n) rfl]
    simp [persistedLookup, h1]
  · rw [get_nonpending ctx (.Hash d) (.hash d) rfl]
    simp [persistedLookup, h2]

/-- C6 witness: the not-found theorem instantiated at `ctx1` with an
unknown height and an unknown hash. -/
theorem nonexistent_block_not_found_witness :
    get_block_with_tx_hashes ctx1 { block_id := .Number 9999 } =
        some (.error .BlockNotFound) ∧
      get_block_with_tx_hashes ctx1 { block_id := .Hash "0xdead" } =
        some (.error .BlockNotFound) :=
  nonexistent_block_not_found ctx1 9999 "0xdead"
    (by simp [ctx1, storage1, hdr0]) (by simp [ctx1, storage1, hdr0])

/-- C9: for every identifier payload, the positional and the named
encoding of the input deserialize identically; each valid encoding (tag
strings, number object, hash object) yields its `BlockId`; and any object
carrying a field other than the discriminating keys — in the identifier
object or in the named-parameter object — fails schema validation. -/
theorem input_parsing :
    (∀ v, parseGetBlockInput (.arr [v]) =
        parseGetBlockInput (.obj [("block_id", v)])) ∧
      parseBlockId (.str "pending") = some .Pending ∧
      parseBlockId (.str "latest") = some .Latest ∧
      (∀ n, parseBlockId (.obj [("block_number", .num n)]) = some (.Number n)) ∧
      (∀ d, parseBlockId (.obj [("block_hash", .str d)]) = some (.Hash d)) ∧
      (∀ fs k v, (k, v) ∈ fs → ¬ k = "block_number" → ¬ k = "block_hash" →
        parseBlockId (.obj fs) = none) ∧
      ∀ fs k v, (k, v) ∈ fs → ¬ k = "block_id" →
        parseGetBlockInput (.obj fs) = none := by
  refine ⟨fun v => by simp [parseGetBlockInput], rfl, rfl,
    fun n => by simp [parseBlockId], fun d => by simp [parseBlockId], ?_, ?_⟩
  · intro fs k v hmem hk1 hk2
    rcases fs with _ | ⟨⟨k0, v0⟩, rest⟩
    · cases hmem
    · rcases rest with _ | ⟨p1, rest2⟩
      · have heq : (k, v) = (k0, v0) := List.mem_singleton.mp hmem
        have hk : k0 = k := (congrArg Prod.fst heq).symm
        subst hk
        simp [parseBlockId, hk1, hk2]
      · rfl
  · intro fs k v hmem hk
    rcases fs with _ | ⟨⟨k0, v0⟩, rest⟩
    · cases hmem
    · rcases rest with _ | ⟨p1, rest2⟩
      · have heq : (k, v) = (k0, v0) := List.mem_singleton.mp hmem
        have hk0 : k0 = k := (congrArg Prod.fst heq).symm
        subst hk0
        simp [parseGetBlockInput, hk]
      · rfl

/-- C9 witness: the parsing theorem instantiated at the concrete
encodings `"pending"`, `{block_number: 123}`, and an object with the
unknown field `foo`. -/
theorem input_parsing_witness :
    parseGetBlockInput (.arr [.str "pending"]) =
        parseGetBlockInput (.obj [("block_id", .str "pending")]) ∧
      parseBlockId (.obj [("block_number", .num 123)]) = some (.Number 123) ∧
      parseBlockId (.obj [("foo", .num 1)]) = none ∧
      parseGetBlockInput (.obj [("foo", .num 1)]) = none :=
  ⟨input_parsing.1 (.str "pending"),
   input_parsing.2.2.2.1 123,
   input_parsing.2.2.2.2.2.1 [("foo", .num 1)] "foo" (.num 1)
     (List.mem_singleton.mpr rfl) (by decide) (by decide),
   input_parsing.2.2.2.2.2.2 [("foo", .num 1)] "foo" (.num 1)
     (List.mem_singleton.mpr rfl) (by decide)⟩
